import Mathlib

/-!
Shallow embedding of `src/main.go` of `friendlydan/speedlingo`.

The program is a single sequential pipeline: load credentials, request a fork
on the forge, poll until the fork is queryable, clone it into a temp dir,
inject a fixed analysis configuration, run the external `lingo` tool, and in
rewrite mode additionally checkout a dedicated branch, stage all changes,
subtract the injected scaffolding files, commit and push.

Modelling conventions:
* Every external call (forge API, filesystem, git, subprocess) is a field of
  the `Env` record holding the outcome that call would produce.  The pipeline
  itself is a pure function of `Env`, mirroring the control flow of
  `main.go` line by line.
* The workspace working tree is abstracted to its list of top-level entries
  (`DirEnt`), which is the granularity at which `main.go` inspects it
  (`ioutil.ReadDir` at lines 180 and 264, scaffolding writes at the root).
* git semantics follow go-git v4, which the program imports:
  - `Worktree.Checkout` with `Create:false` succeeds exactly when the branch
    reference exists (the clone is pristine at that point, so no other
    failure source is modelled);
  - `Worktree.AddGlob "."` makes the index mirror the working tree;
  - `Worktree.Remove` has git-rm semantics: it removes the path from the
    index AND from the working tree (go-git v4 doc string: it removes files
    from the working tree and from the index);
  - `Repository.CommitObject` on the zero hash fails with the object-not-found
    error (the zero hash is what `Worktree.Commit` returns on failure).
* `log.Fatal` calls `os.Exit`, which terminates the process WITHOUT running
  deferred calls; hence the deferred `os.RemoveAll(dir)` of line 102 runs only
  when `main` returns normally.  `RunResult.dirExists` records whether the
  temp dir is still on disk at process exit.
* Wall-clock time in the poll loop is counted in seconds: the only operation
  that advances time in the loop body is `time.Sleep(2 * time.Second)`, so the
  check at iteration k sees `now = 2k` seconds past the deadline start.
-/

namespace Speedlingo

/-! ## Constants of src/main.go (lines 30-45) -/

/-- Line 30: review-mode configuration content, two tenet imports.
Declared in the source and never referenced by either handler. -/
def yamlDataReview : String :=
  "tenets:\n  - import: codelingo/code-review-comments\n  - import: codelingo/effective-go\n"

/-- Line 34: rewrite-mode configuration content, one tenet import. -/
def yamlDataRewrite : String :=
  "tenets:\n  - import: codelingo/effective-go/comment-first-word-as-subject\n"

/-- Line 38. -/
def configFile : String := "config.yaml"

/-- Line 39. -/
def ignoreData : String := "vendor/"

/-- Line 40: name of the injected configuration file. -/
def yamlName : String := "codelingo.yaml"

/-- Line 41: name of the injected ignore file. -/
def ignoreFileName : String := ".codelingoignore"

/-- Line 42. -/
def commitMessageRewrite : String :=
  "Update comments based on best practices from Effective Go"

/-- Line 43: the dedicated rewrite branch. -/
def branchName : String := "rewrite"

/-- Line 75: the forge response text recognized as fork-scheduled. -/
def scheduledMsg : String := "job scheduled on GitHub side; try again later"

/-- Line 131: the unsupported-command error text. -/
def cmdNotFoundMsg : String := "command not found. Commands available: review, rewrite"

/-- go-git error returned by CommitObject when the hash is not in the store. -/
def errObjectNotFound : String := "object not found"

/-- go-git error for checkout of a non-existing reference without Create. -/
def errRefNotFound : String := "reference not found"

/-- go-git error for Worktree.Remove of a path that is not present. -/
def errEntryNotFound : String := "entry not found"

/-! ## String containment, mirroring strings.Contains (line 75) -/

/-- Whether the first list is an initial segment of the second. -/
def charsPrefix : List Char → List Char → Bool
  | [], _ => true
  | _ :: _, [] => false
  | a :: as, b :: bs => a == b && charsPrefix as bs

/-- Whether the first list occurs contiguously inside the second. -/
def charsContain (needle : List Char) : List Char → Bool
  | [] => charsPrefix needle []
  | c :: t => charsPrefix needle (c :: t) || charsContain needle t

/-- strings.Contains hay needle. -/
def strContains (hay needle : String) : Bool :=
  charsContain needle.toList hay.toList

/-! ## Credentials file (lines 24-28, 298-306) -/

/-- The yaml-tagged struct of lines 24-28. -/
structure config where
  username : String
  email : String
  token : String
  deriving Repr, DecidableEq

/-- A parsed yaml credentials document: field name, value pairs. -/
abbrev Doc := List (String × String)

/-- The yaml field names the struct of lines 24-28 declares. -/
def configFields : List String := ["username", "email", "token"]

/-- Value of a field in the document, or the zero value when absent. -/
def decodeField (doc : Doc) (k : String) : String :=
  match doc.find? (fun p => p.1 == k) with
  | some p => p.2
  | none => ""

/-- The struct fields yaml decoding fills in from the document. -/
def decodeDoc (doc : Doc) : config :=
  { username := decodeField doc "username"
    email := decodeField doc "email"
    token := decodeField doc "token" }

/-- yaml.UnmarshalStrict: decodes, but reports an error when the document
has a field the struct does not declare.  Known fields are populated even
in the error case, which the returned value of line 305 exposes. -/
def unmarshalStrict (doc : Doc) : Except String config :=
  if doc.all (fun p => configFields.contains p.1) then .ok (decodeDoc doc)
  else .error "yaml: unmarshal errors: field not found in type main.config"

/-- Lines 298-306.  Line 304 assigns the UnmarshalStrict error to err, but
line 305 returns `result, nil`, discarding err unconditionally. -/
def unmarshalConfigFile (readResult : Except String Doc) : Except String config :=
  match readResult with
  | .error e => .error e
  | .ok doc =>
    let result := decodeDoc doc
    let _err := unmarshalStrict doc
    .ok result

/-! ## Workspace and run state -/

/-- A top-level directory entry of the workspace, as ioutil.ReadDir reports it. -/
structure DirEnt where
  name : String
  isDir : Bool
  deriving Repr, DecidableEq

/-- Names of a list of entries. -/
def entNames (l : List DirEnt) : List String := l.map (fun e => e.name)

/-- The scan of lines 184-189 and 268-273: a top-level directory literally
named vendor. -/
def hasVendor (l : List DirEnt) : Bool :=
  l.any (fun e => e.name == "vendor" && e.isDir)

/-- ioutil.WriteFile at the workspace root: creates or overwrites a plain file. -/
def fsWrite (ws : List DirEnt) (n : String) : List DirEnt :=
  ⟨n, false⟩ :: ws.filter (fun e => e.name != n)

/-- Observable events of one run, for stating which external actions happened. -/
inductive Event where
  | forkRequest
  | cloneRepo
  | checkoutNoCreate
  | checkoutCreate
  | toolRun
  | commitTry
  | pushTry
  | pushDone
  deriving Repr, DecidableEq

/-- Pipeline state threaded through the handlers once the clone exists. -/
structure St where
  ws : List DirEnt
  branches : List String
  index : List String
  dirExists : Bool
  events : List Event
  yamlWritten : Option String
  wsBeforeTool : Option (List DirEnt)
  commitFiles : Option (List String)
  deriving Repr, DecidableEq

/-- How the process terminated. -/
inductive Outcome where
  | usage
  | fatal (msg : String)
  | ok
  deriving Repr, DecidableEq

/-- Observables of a whole run of main. -/
structure RunResult where
  outcome : Outcome
  events : List Event
  polls : Nat
  dirCreated : Bool
  dirExists : Bool
  ws : List DirEnt
  yamlWritten : Option String
  wsBeforeTool : Option (List DirEnt)
  commitFiles : Option (List String)
  deriving Repr, DecidableEq

/-- The all-empty run result, refined by each exit path. -/
def RunResult.base : RunResult :=
  { outcome := .ok, events := [], polls := 0, dirCreated := false,
    dirExists := false, ws := [], yamlWritten := none,
    wsBeforeTool := none, commitFiles := none }

/-- Outcomes of the external calls the pipeline makes, one field per call
site of src/main.go.  The pipeline is a pure function of this record. -/
structure Env where
  mkResultsDirOk : Except String Unit
  readConfig : Except String Doc
  createFork : Except String Unit
  getFork : Nat → Except String Unit
  tempDir : Except String Unit
  cloneRes : Except String Unit
  entries : List DirEnt
  branches : List String
  worktreeOk : Except String Unit
  chdirOk : Except String Unit
  readDirOk : Except String Unit
  writeYamlOk : Except String Unit
  writeIgnoreOk : Except String Unit
  cmdRun : Except String Unit
  toolEffect : List DirEnt → List DirEnt
  createBranchOk : Except String Unit
  addGlobOk : Except String Unit
  commitRes : Except String Nat
  pushOk : Except String Unit

/-! ## runCmd (lines 135-150) -/

/-- Lines 135-150: chdir into the workspace, run the lingo subprocess.  On a
run failure the workspace directory is removed immediately (line 145) and the
error is annotated (line 146, juju errors.Annotate formatting). -/
def runCmd (env : Env) (st : St) : Except String Unit × St :=
  match env.chdirOk with
  | .error e => (.error e, st)
  | .ok _ =>
  let st := { st with events := st.events ++ [Event.toolRun] }
  match env.cmdRun with
  | .error e => (.error ("cmd.Run() failed:: " ++ e), { st with dirExists := false })
  | .ok _ => (.ok (), { st with ws := env.toolEffect st.ws })

/-! ## Branch resolution (lines 163-175) -/

/-- Line 167: Checkout with Create:false; succeeds exactly when the branch
reference exists (the freshly cloned worktree is pristine). -/
def checkoutNoCreate (branches : List String) : Except String Unit :=
  if branches.contains branchName then .ok () else .error errRefNotFound

/-- Line 171: Checkout with Create:true; fails if the branch already exists,
otherwise creates it unless local repository state forbids it
(env.createBranchOk injects such a failure). -/
def checkoutCreate (env : Env) (branches : List String) : Except String (List String) :=
  if branches.contains branchName then .error "a branch with that name already exists"
  else
    match env.createBranchOk with
    | .error e => .error e
    | .ok _ => .ok (branchName :: branches)

/-- Lines 163-175: try plain checkout first; on any failure retry with
creation enabled; a creation failure is returned to the caller. -/
def resolveBranch (env : Env) (branches : List String) :
    Except String (List String) × List Event :=
  match checkoutNoCreate branches with
  | .ok _ => (.ok branches, [Event.checkoutNoCreate])
  | .error _ =>
    match checkoutCreate env branches with
    | .error e => (.error e, [Event.checkoutNoCreate, Event.checkoutCreate])
    | .ok bs => (.ok bs, [Event.checkoutNoCreate, Event.checkoutCreate])

/-! ## Scaffolding writes shared by the two handlers (lines 197-204, 281-288) -/

/-- Writes the ignore file when the vendor scan asked for it. -/
def writeIgnoreIfNeeded (env : Env) (needed : Bool) (st : St) :
    Except String Unit × St :=
  if needed then
    match env.writeIgnoreOk with
    | .error e => (.error e, st)
    | .ok _ => (.ok (), { st with ws := fsWrite st.ws ignoreFileName })
  else (.ok (), st)

/-- Line 216 and line 222: Worktree.Remove, with git-rm semantics: the path
is removed from the index and from the working tree; a missing path is an
error. -/
def removePath (st : St) (n : String) : Except String St :=
  if st.ws.any (fun e => e.name == n) then
    .ok { st with
          ws := st.ws.filter (fun e => e.name != n)
          index := st.index.filter (fun s => s != n) }
  else .error errEntryNotFound

/-! ## handleReview (lines 262-296) -/

/-- Lines 262-296: scan for vendor, write the configuration file (line 276
writes yamlDataRewrite, not yamlDataReview), conditionally write the ignore
file, then run the tool. -/
def handleReview (env : Env) (st : St) : Except String Unit × St :=
  match env.readDirOk with
  | .error e => (.error e, st)
  | .ok _ =>
  let needsIgnoreFile := hasVendor st.ws
  match env.writeYamlOk with
  | .error e => (.error e, st)
  | .ok _ =>
  let st1 := { st with ws := fsWrite st.ws yamlName, yamlWritten := some yamlDataRewrite }
  match writeIgnoreIfNeeded env needsIgnoreFile st1 with
  | (.error e, st2) => (.error e, st2)
  | (.ok _, st2) =>
  let st3 := { st2 with wsBeforeTool := some st2.ws }
  runCmd env st3

/-! ## handleRewrite (lines 152-260) -/

/-- Lines 152-260: chdir, branch resolution, vendor scan, scaffolding writes,
tool run, stage-all, subtract scaffolding, commit, push.  Line 236 overwrites
the error of Worktree.Commit (line 228) with the CommitObject lookup result,
so a failed commit surfaces as the object-not-found error of the zero hash. -/
def handleRewrite (env : Env) (st : St) : Except String Unit × St :=
  match env.chdirOk with
  | .error e => (.error e, st)
  | .ok _ =>
  match env.worktreeOk with
  | .error e => (.error e, st)
  | .ok _ =>
  match resolveBranch env st.branches with
  | (.error e, evs) => (.error e, { st with events := st.events ++ evs })
  | (.ok bs, evs) =>
  let st1 := { st with branches := bs, events := st.events ++ evs }
  match env.readDirOk with
  | .error e => (.error e, st1)
  | .ok _ =>
  let needsIgnoreFile := hasVendor st1.ws
  match env.writeYamlOk with
  | .error e => (.error e, st1)
  | .ok _ =>
  let st2 := { st1 with ws := fsWrite st1.ws yamlName, yamlWritten := some yamlDataRewrite }
  match writeIgnoreIfNeeded env needsIgnoreFile st2 with
  | (.error e, st3) => (.error e, st3)
  | (.ok _, st3) =>
  let st4 := { st3 with wsBeforeTool := some st3.ws }
  match runCmd env st4 with
  | (.error e, st5) => (.error e, st5)
  | (.ok _, st5) =>
  match env.addGlobOk with
  | .error e => (.error e, st5)
  | .ok _ =>
  let st6 := { st5 with index := entNames st5.ws }
  match removePath st6 yamlName with
  | .error e => (.error e, st6)
  | .ok st7 =>
  match (if needsIgnoreFile then removePath st7 ignoreFileName else .ok st7) with
  | .error e => (.error e, st7)
  | .ok st8 =>
  let st9 := { st8 with events := st8.events ++ [Event.commitTry] }
  match env.commitRes with
  | .error _ => (.error errObjectNotFound, st9)
  | .ok _ =>
  let st10 := { st9 with commitFiles := some st9.index }
  match env.pushOk with
  | .error e => (.error e, { st10 with events := st10.events ++ [Event.pushTry] })
  | .ok _ => (.ok (), { st10 with events := st10.events ++ [Event.pushTry, Event.pushDone] })

/-! ## The poll loop (lines 80-93) -/

/-- Line 89 interval, in seconds. -/
def pollIntervalSec : Nat := 2

/-- Line 80 deadline, in seconds. -/
def pollDeadlineSec : Nat := 300

/-- Lines 81-93.  Iteration k of the loop sees `now = pollIntervalSec * k`
seconds after the deadline was set (sleep is the only time the loop spends).
The fuel argument is strictly larger than the number of iterations the
deadline admits, so the zero-fuel branch is unreachable from pollFork.
Returns the loop result together with the number of Get calls made. -/
def pollLoop (get : Nat → Except String Unit) :
    Nat → Nat → String → Except String Unit × Nat
  | 0, _, lastErr => (.error lastErr, 0)
  | fuel + 1, k, lastErr =>
    if pollIntervalSec * k > pollDeadlineSec then (.error lastErr, 0)
    else
      match get k with
      | .error e =>
        let r := pollLoop get fuel (k + 1) e
        (r.1, r.2 + 1)
      | .ok _ => (.ok (), 1)

/-- Enough fuel for every iteration the 5-minute deadline admits. -/
def pollFuel : Nat := 200

/-- The whole polling phase, entered right after the fork request. -/
def pollFork (get : Nat → Except String Unit) (lastErr : String) :
    Except String Unit × Nat :=
  pollLoop get pollFuel 0 lastErr

/-! ## main (lines 49-133) -/

/-- Pipeline state right after a successful clone (line 107). -/
def initSt (env : Env) : St :=
  { ws := env.entries, branches := env.branches, index := [],
    dirExists := true,
    events := [Event.forkRequest, Event.cloneRepo],
    yamlWritten := none, wsBeforeTool := none, commitFiles := none }

/-- Turns a handler result into the final run result.  A handler error is
log.Fatal at lines 123, 128 or 131: os.Exit skips the deferred RemoveAll,
so the directory survives unless runCmd already removed it.  A normal return
runs the defer of line 102 and the directory is gone. -/
def finish : Except String Unit × St → Nat → RunResult
  | (.error e, st), n =>
    { outcome := .fatal e, events := st.events, polls := n, dirCreated := true,
      dirExists := st.dirExists, ws := st.ws, yamlWritten := st.yamlWritten,
      wsBeforeTool := st.wsBeforeTool, commitFiles := st.commitFiles }
  | (.ok _, st), n =>
    { outcome := .ok, events := st.events, polls := n, dirCreated := true,
      dirExists := false, ws := st.ws, yamlWritten := st.yamlWritten,
      wsBeforeTool := st.wsBeforeTool, commitFiles := st.commitFiles }

/-- The switch of lines 118-132. -/
def dispatch (env : Env) (mode : String) (st : St) : Except String Unit × St :=
  if mode == "review" then handleReview env st
  else if mode == "rewrite" then handleRewrite env st
  else (.error cmdNotFoundMsg, st)

/-- Lines 98-132: temp dir, clone, then the mode switch. -/
def afterFork (env : Env) (mode : String) (n : Nat) : RunResult :=
  match env.tempDir with
  | .error e =>
    { RunResult.base with outcome := .fatal e, events := [Event.forkRequest], polls := n }
  | .ok _ =>
  match env.cloneRes with
  | .error e =>
    { RunResult.base with
      outcome := .fatal e
      events := [Event.forkRequest, Event.cloneRepo]
      polls := n
      dirCreated := true
      dirExists := true }
  | .ok _ => finish (dispatch env mode (initSt env)) n

/-- Lines 80-93 embedded in the run: a poll timeout is log.Fatal with the
last observed error, before any temp dir or clone. -/
def pollPhase (env : Env) (mode : String) (lastErr : String) : RunResult :=
  match pollFork env.getFork lastErr with
  | (.error e, n) =>
    { RunResult.base with outcome := .fatal e, events := [Event.forkRequest], polls := n }
  | (.ok _, n) => afterFork env mode n

/-- Lines 58-132, after the arity check: results dir, credentials, fork
request (line 73), scheduled-message check (line 75), polling, and the rest
of the pipeline. -/
def speedMainGo (env : Env) (mode : String) : RunResult :=
  match env.mkResultsDirOk with
  | .error e => { RunResult.base with outcome := .fatal e }
  | .ok _ =>
  match unmarshalConfigFile env.readConfig with
  | .error e => { RunResult.base with outcome := .fatal e }
  | .ok _conf =>
  match env.createFork with
  | .error e =>
    if strContains e scheduledMsg then pollPhase env mode e
    else { RunResult.base with outcome := .fatal e, events := [Event.forkRequest] }
  | .ok _ => pollPhase env mode ""

/-- Lines 49-133: the whole program, as a function of the argument vector and
the environment.  Arity other than 4 prints usage and exits 1 (lines 53-56). -/
def speedMain (env : Env) (args : List String) : RunResult :=
  match args with
  | [_, mode, _, _] => speedMainGo env mode
  | _ => { RunResult.base with outcome := .usage }

/-! ## Concrete inputs used by witnesses and counterexamples -/

/-- A clone whose top level has one source file and no vendor directory. -/
def entriesPlain : List DirEnt := [⟨"main.go", false⟩]

/-- A clone whose top level also has a directory literally named vendor. -/
def entriesVendor : List DirEnt := [⟨"main.go", false⟩, ⟨"vendor", true⟩]

/-- A well-formed credentials document. -/
def docOk : Doc := [("username", "alice"), ("email", "alice@example.org"), ("token", "t0")]

/-- Environment in which every external call succeeds. -/
def envOk : Env :=
  { mkResultsDirOk := .ok ()
    readConfig := .ok docOk
    createFork := .ok ()
    getFork := fun _ => .ok ()
    tempDir := .ok ()
    cloneRes := .ok ()
    entries := entriesPlain
    branches := ["master"]
    worktreeOk := .ok ()
    chdirOk := .ok ()
    readDirOk := .ok ()
    writeYamlOk := .ok ()
    writeIgnoreOk := .ok ()
    cmdRun := .ok ()
    toolEffect := id
    createBranchOk := .ok ()
    addGlobOk := .ok ()
    commitRes := .ok 1
    pushOk := .ok () }

/-- Canonical argument vectors. -/
def argsReview : List String := ["speedlingo", "review", "acme", "widget"]

def argsRewrite : List String := ["speedlingo", "rewrite", "acme", "widget"]

/-! ## Helper lemmas about the workspace abstraction -/

theorem entNames_filter_not_mem (l : List DirEnt) (a : String) :
    a ∉ entNames (l.filter (fun e => e.name != a)) := by
  simp [entNames, List.mem_filter]

theorem entNames_filter_subset (l : List DirEnt) (p : DirEnt → Bool) (a : String)
    (h : a ∈ entNames (l.filter p)) : a ∈ entNames l := by
  simp only [entNames, List.mem_map, List.mem_filter] at h ⊢
  obtain ⟨e, ⟨he, _⟩, hn⟩ := h
  exact ⟨e, he, hn⟩

theorem not_mem_entNames_filter (l : List DirEnt) (p : DirEnt → Bool) (a : String)
    (h : a ∉ entNames l) : a ∉ entNames (l.filter p) :=
  fun hc => h (entNames_filter_subset l p a hc)

theorem mem_entNames_fsWrite_self (l : List DirEnt) (a : String) :
    a ∈ entNames (fsWrite l a) := by
  simp [fsWrite, entNames]

theorem mem_entNames_fsWrite_other (l : List DirEnt) (a b : String) (hne : b ≠ a)
    (h : b ∈ entNames l) : b ∈ entNames (fsWrite l a) := by
  simp only [fsWrite, entNames, List.mem_map, List.map_cons, List.mem_cons] at h ⊢
  obtain ⟨e, he, hn⟩ := h
  exact Or.inr ⟨e, List.mem_filter.mpr ⟨he, by simp [hn, hne]⟩, hn⟩

theorem mem_entNames_fsWrite_elim (l : List DirEnt) (a b : String)
    (h : b ∈ entNames (fsWrite l a)) : b = a ∨ b ∈ entNames l := by
  simp only [fsWrite, entNames, List.map_cons, List.mem_cons, List.mem_map] at h
  rcases h with h | ⟨e, he, hn⟩
  · exact Or.inl h
  · exact Or.inr (by
      simp only [entNames, List.mem_map]
      exact ⟨e, List.mem_filter.mp he |>.1, hn⟩)

theorem not_mem_filter_ne_self (ix : List String) (a : String) :
    a ∉ ix.filter (fun s => s != a) := by
  simp [List.mem_filter]

theorem not_mem_filter_of_not_mem (ix : List String) (p : String → Bool) (a : String)
    (h : a ∉ ix) : a ∉ ix.filter p :=
  fun hc => h (List.mem_filter.mp hc).1

theorem not_mem_filter_false (ix : List String) (p : String → Bool) (a : String)
    (hpa : p a = false) : a ∉ ix.filter p := by
  intro h
  have hc := (List.mem_filter.mp h).2
  rw [hpa] at hc
  exact Bool.false_ne_true hc

theorem not_mem_entNames_filter_false (l : List DirEnt) (q : DirEnt → Bool) (a : String)
    (hq : ∀ e, e.name = a → q e = false) : a ∉ entNames (l.filter q) := by
  intro h
  simp only [entNames, List.mem_map, List.mem_filter] at h
  obtain ⟨e, ⟨_, hqe⟩, hn⟩ := h
  rw [hq e hn] at hqe
  exact Bool.false_ne_true hqe

/-! ## Helper lemmas about the poll loop -/

theorem pollLoop_succ (get : Nat → Except String Unit) (fuel k : Nat) (le : String) :
    pollLoop get (fuel + 1) k le =
      if pollIntervalSec * k > pollDeadlineSec then (.error le, 0)
      else
        match get k with
        | .error e =>
          let r := pollLoop get fuel (k + 1) e
          (r.1, r.2 + 1)
        | .ok _ => (.ok (), 1) := rfl

/-- When every readiness query fails, the loop runs its full 5-minute budget:
the query at iteration k happens at second 2k, the last one fitting the
deadline is iteration 150, and the check at second 302 terminates with the
error of that last query. -/
theorem pollLoop_allFail (get : Nat → Except String Unit) (f : Nat → String)
    (hget : ∀ k, get k = .error (f k)) :
    ∀ n fuel k le, k + n = 151 → n + 1 ≤ fuel →
      pollLoop get fuel k le = (.error (if n = 0 then le else f 150), n) := by
  intro n
  induction n with
  | zero =>
    intro fuel k le hk hfuel
    obtain ⟨m, rfl⟩ : ∃ m, fuel = m + 1 := ⟨fuel - 1, by omega⟩
    have hk151 : k = 151 := by omega
    subst hk151
    rw [pollLoop_succ]
    simp [pollIntervalSec, pollDeadlineSec]
  | succ n ih =>
    intro fuel k le hk hfuel
    obtain ⟨m, rfl⟩ : ∃ m, fuel = m + 1 := ⟨fuel - 1, by omega⟩
    rw [pollLoop_succ]
    have hkle : ¬ pollIntervalSec * k > pollDeadlineSec := by
      simp only [pollIntervalSec, pollDeadlineSec]
      omega
    rw [if_neg hkle, hget k]
    have hrec := ih m (k + 1) (f k) (by omega) (by omega)
    dsimp only
    rw [hrec]
    rcases Nat.eq_zero_or_pos n with hn | hn
    · subst hn
      have : k = 150 := by omega
      subst this
      simp
    · simp [Nat.pos_iff_ne_zero.mp hn]

/-- The whole polling phase under an always-failing query: 151 queries, then
the fatal stop carrying the error of query 150. -/
theorem pollFork_allFail (get : Nat → Except String Unit) (f : Nat → String)
    (hget : ∀ k, get k = .error (f k)) (le : String) :
    pollFork get le = (.error (f 150), 151) := by
  have h := pollLoop_allFail get f hget 151 pollFuel 0 le (by omega)
    (by simp [pollFuel])
  simpa using h

/-- A first successful readiness query ends polling after a single query. -/
theorem pollFork_firstOk (get : Nat → Except String Unit) (le : String)
    (h : get 0 = .ok ()) : pollFork get le = (.ok (), 1) := by
  show pollLoop get pollFuel 0 le = _
  rw [show pollFuel = 199 + 1 from rfl, pollLoop_succ]
  simp [pollIntervalSec, pollDeadlineSec, h]

/-- The loop always issues at least one readiness query. -/
theorem pollFork_count_pos (get : Nat → Except String Unit) (le : String) :
    1 ≤ (pollFork get le).2 := by
  show 1 ≤ (pollLoop get pollFuel 0 le).2
  rw [show pollFuel = 199 + 1 from rfl, pollLoop_succ]
  rcases hg : get 0 with e | u <;>
    simp [pollIntervalSec, pollDeadlineSec, hg]

/-! ## Plumbing lemmas about the assembled pipeline -/

theorem dispatch_review (env : Env) (st : St) :
    dispatch env "review" st = handleReview env st := rfl

theorem dispatch_rewrite (env : Env) (st : St) :
    dispatch env "rewrite" st = handleRewrite env st := rfl

theorem speedMain_cons (env : Env) (p m o r : String) :
    speedMain env [p, m, o, r] = speedMainGo env m := rfl

theorem afterFork_polls (env : Env) (mode : String) (n : Nat) :
    (afterFork env mode n).polls = n := by
  rcases ht : env.tempDir with e | u
  · simp [afterFork, ht]
  rcases hc : env.cloneRes with e | u2
  · simp [afterFork, ht, hc]
  rcases hd : dispatch env mode (initSt env) with ⟨res, st⟩
  cases res <;> simp [afterFork, ht, hc, hd, finish]

theorem pollPhase_polls (env : Env) (mode : String) (le : String) :
    (pollPhase env mode le).polls = (pollFork env.getFork le).2 := by
  rcases hp : pollFork env.getFork le with ⟨res, n⟩
  cases res <;> simp [pollPhase, hp, afterFork_polls]

/-- A run that ends in Outcome.ok went through the mode handler, and the
observables of the run are those the handler produced. -/
theorem pollPhase_ok (env : Env) (mode le : String)
    (hok : (pollPhase env mode le).outcome = .ok) :
    ∃ st', dispatch env mode (initSt env) = (.ok (), st') ∧
      (pollPhase env mode le).ws = st'.ws ∧
      (pollPhase env mode le).wsBeforeTool = st'.wsBeforeTool ∧
      (pollPhase env mode le).commitFiles = st'.commitFiles ∧
      (pollPhase env mode le).yamlWritten = st'.yamlWritten := by
  rcases hp : pollFork env.getFork le with ⟨res, n⟩
  cases res with
  | error e => simp [pollPhase, hp] at hok
  | ok u =>
    have hpp : pollPhase env mode le = afterFork env mode n := by
      simp [pollPhase, hp]
    rw [hpp] at hok ⊢
    rcases ht : env.tempDir with e | u2
    · simp [afterFork, ht] at hok
    rcases hc : env.cloneRes with e | u3
    · simp [afterFork, ht, hc] at hok
    have haf : afterFork env mode n = finish (dispatch env mode (initSt env)) n := by
      simp [afterFork, ht, hc]
    rw [haf] at hok ⊢
    rcases hd : dispatch env mode (initSt env) with ⟨res2, st'⟩
    cases res2 with
    | error e => rw [hd] at hok; simp [finish] at hok
    | ok u4 =>
      cases u4
      exact ⟨st', rfl, by simp [finish], by simp [finish], by simp [finish],
        by simp [finish]⟩

/-- Same, lifted over the preamble of main (results dir, credentials file,
fork request, polling): a successful run reached the handler. -/
theorem speedMainGo_ok (env : Env) (mode : String)
    (hok : (speedMainGo env mode).outcome = .ok) :
    ∃ st', dispatch env mode (initSt env) = (.ok (), st') ∧
      (speedMainGo env mode).ws = st'.ws ∧
      (speedMainGo env mode).wsBeforeTool = st'.wsBeforeTool ∧
      (speedMainGo env mode).commitFiles = st'.commitFiles ∧
      (speedMainGo env mode).yamlWritten = st'.yamlWritten := by
  rcases h1 : env.mkResultsDirOk with e | u
  · simp [speedMainGo, h1] at hok
  rcases h2 : env.readConfig with e | doc
  · simp [speedMainGo, h1, h2, unmarshalConfigFile] at hok
  rcases h3 : env.createFork with e | u2
  · cases hs : strContains e scheduledMsg with
    | false =>
      have : speedMainGo env mode =
          { RunResult.base with outcome := .fatal e, events := [Event.forkRequest] } := by
        simp [speedMainGo, h1, h2, unmarshalConfigFile, h3, hs]
      rw [this] at hok
      simp at hok
    | true =>
      have heq : speedMainGo env mode = pollPhase env mode e := by
        simp [speedMainGo, h1, h2, unmarshalConfigFile, h3, hs]
      rw [heq] at hok ⊢
      exact pollPhase_ok env mode e hok
  · have heq : speedMainGo env mode = pollPhase env mode "" := by
      simp [speedMainGo, h1, h2, unmarshalConfigFile, h3]
    rw [heq] at hok ⊢
    exact pollPhase_ok env mode "" hok

/-- A successful rewrite-mode run is exactly a successful handleRewrite on
the freshly cloned state, and the observables agree. -/
theorem speedMain_rewrite_ok (env : Env) (p o r : String)
    (hok : (speedMain env [p, "rewrite", o, r]).outcome = .ok) :
    ∃ st', handleRewrite env (initSt env) = (.ok (), st') ∧
      (speedMain env [p, "rewrite", o, r]).ws = st'.ws ∧
      (speedMain env [p, "rewrite", o, r]).wsBeforeTool = st'.wsBeforeTool ∧
      (speedMain env [p, "rewrite", o, r]).commitFiles = st'.commitFiles ∧
      (speedMain env [p, "rewrite", o, r]).yamlWritten = st'.yamlWritten := by
  rw [speedMain_cons] at hok ⊢
  obtain ⟨st', hd, h⟩ := speedMainGo_ok env "rewrite" hok
  rw [dispatch_rewrite] at hd
  exact ⟨st', hd, h⟩

/-- The two scaffolding names differ. -/
theorem yamlName_ne_ignoreFileName : yamlName ≠ ignoreFileName := by decide

/-- Anatomy of a successful handleRewrite on a clone that does not already
ship files with the scaffolding names: the working tree recorded just before
the tool ran holds the configuration file, and the ignore file exactly when
the vendor directory was found; the committed file set holds neither; and
after the remove step neither scaffolding file is in the working tree. -/
theorem handleRewrite_ok_spec (env : Env) (st st' : St)
    (hi : ignoreFileName ∉ entNames st.ws)
    (H : handleRewrite env st = (.ok (), st')) :
    ∃ wb cf,
      st'.wsBeforeTool = some wb ∧
      st'.commitFiles = some cf ∧
      yamlName ∈ entNames wb ∧
      (hasVendor st.ws = true ↔ ignoreFileName ∈ entNames wb) ∧
      yamlName ∉ cf ∧
      (hasVendor st.ws = true → ignoreFileName ∉ cf) ∧
      yamlName ∉ entNames st'.ws ∧
      (hasVendor st.ws = true → ignoreFileName ∉ entNames st'.ws) := by
  rcases h1 : env.chdirOk with e | u1
  · simp [handleRewrite, h1] at H
  rcases h2 : env.worktreeOk with e | u2
  · simp [handleRewrite, h1, h2] at H
  rcases hrb : resolveBranch env st.branches with ⟨rbres, evs⟩
  cases rbres with
  | error e => simp [handleRewrite, h1, h2, hrb] at H
  | ok bs =>
  rcases h3 : env.readDirOk with e | u3
  · simp [handleRewrite, h1, h2, hrb, h3] at H
  rcases h4 : env.writeYamlOk with e | u4
  · simp [handleRewrite, h1, h2, hrb, h3, h4] at H
  cases hv : hasVendor st.ws with
  | false =>
    rcases h6 : env.cmdRun with e | u6
    · simp [handleRewrite, runCmd, writeIgnoreIfNeeded, h1, h2, hrb, h3, h4, hv, h6] at H
    rcases h7 : env.addGlobOk with e | u7
    · simp [handleRewrite, runCmd, writeIgnoreIfNeeded, h1, h2, hrb, h3, h4, hv, h6, h7] at H
    rcases Bool.eq_false_or_eq_true ((env.toolEffect (fsWrite st.ws yamlName)).any
        (fun e => e.name == yamlName)) with hany | hany
    case inr =>
      simp [handleRewrite, runCmd, writeIgnoreIfNeeded, removePath,
        h1, h2, hrb, h3, h4, hv, h6, h7, hany] at H
    revert H
    rcases h8 : env.commitRes with e | h8v <;> intro H
    · simp [handleRewrite, runCmd, writeIgnoreIfNeeded, removePath,
        h1, h2, hrb, h3, h4, hv, h6, h7, hany, h8] at H
    revert H
    rcases h9 : env.pushOk with e | u9 <;> intro H
    · simp [handleRewrite, runCmd, writeIgnoreIfNeeded, removePath,
        h1, h2, hrb, h3, h4, hv, h6, h7, hany, h8, h9] at H
    simp [handleRewrite, runCmd, writeIgnoreIfNeeded, removePath,
      h1, h2, hrb, h3, h4, hv, h6, h7, hany, h8, h9, Prod.mk.injEq] at H
    subst H
    refine ⟨_, _, rfl, rfl, mem_entNames_fsWrite_self st.ws yamlName, ?_, ?_, ?_, ?_, ?_⟩
    · constructor
      · intro h; exact absurd h (by simp)
      · intro h
        rcases mem_entNames_fsWrite_elim st.ws yamlName ignoreFileName h with h | h
        · exact absurd h (by decide)
        · exact absurd h hi
    · exact not_mem_filter_false _ _ yamlName (by decide)
    · intro h; exact absurd h (by simp)
    · exact not_mem_entNames_filter_false _ _ yamlName (by intro e he; rw [he]; decide)
    · intro h; exact absurd h (by simp)
  | true =>
    rcases h5 : env.writeIgnoreOk with e | u5
    · simp [handleRewrite, writeIgnoreIfNeeded, h1, h2, hrb, h3, h4, hv, h5] at H
    rcases h6 : env.cmdRun with e | u6
    · simp [handleRewrite, runCmd, writeIgnoreIfNeeded, h1, h2, hrb, h3, h4, hv, h5, h6] at H
    rcases h7 : env.addGlobOk with e | u7
    · simp [handleRewrite, runCmd, writeIgnoreIfNeeded, h1, h2, hrb, h3, h4, hv, h5, h6, h7] at H
    rcases Bool.eq_false_or_eq_true
        ((env.toolEffect (fsWrite (fsWrite st.ws yamlName) ignoreFileName)).any
          (fun e => e.name == yamlName)) with hany | hany
    case inr =>
      simp [handleRewrite, runCmd, writeIgnoreIfNeeded, removePath,
        h1, h2, hrb, h3, h4, hv, h5, h6, h7, hany] at H
    rcases Bool.eq_false_or_eq_true
        (((env.toolEffect (fsWrite (fsWrite st.ws yamlName) ignoreFileName)).filter
          (fun e => e.name != yamlName)).any (fun e => e.name == ignoreFileName)) with
      hany2 | hany2
    case inr =>
      simp [handleRewrite, runCmd, writeIgnoreIfNeeded, removePath,
        h1, h2, hrb, h3, h4, hv, h5, h6, h7, hany, hany2] at H
    revert H
    rcases h8 : env.commitRes with e | h8v <;> intro H
    · simp [handleRewrite, runCmd, writeIgnoreIfNeeded, removePath,
        h1, h2, hrb, h3, h4, hv, h5, h6, h7, hany, hany2, h8] at H
    revert H
    rcases h9 : env.pushOk with e | u9 <;> intro H
    · simp [handleRewrite, runCmd, writeIgnoreIfNeeded, removePath,
        h1, h2, hrb, h3, h4, hv, h5, h6, h7, hany, hany2, h8, h9] at H
    simp [handleRewrite, runCmd, writeIgnoreIfNeeded, removePath,
      h1, h2, hrb, h3, h4, hv, h5, h6, h7, hany, hany2, h8, h9, Prod.mk.injEq] at H
    subst H
    refine ⟨_, _, rfl, rfl, ?_, ?_, ?_, ?_, ?_, ?_⟩
    · exact mem_entNames_fsWrite_other _ ignoreFileName yamlName
        yamlName_ne_ignoreFileName (mem_entNames_fsWrite_self st.ws yamlName)
    · exact ⟨fun _ => mem_entNames_fsWrite_self _ ignoreFileName, fun _ => rfl⟩
    · exact not_mem_filter_false _ _ yamlName (by decide)
    · intro _; exact not_mem_filter_false _ _ ignoreFileName (by decide)
    · exact not_mem_entNames_filter_false _ _ yamlName (by intro e he; rw [he]; decide)
    · intro _; exact not_mem_entNames_filter_false _ _ ignoreFileName
        (by intro e he; rw [he]; decide)

/-! ## The claims -/

/-- C1: the claim says the analysis-configuration content written into the
workspace is a function of the mode: two tenet imports (yamlDataReview) for
a review run, one import for a rewrite run.  The code violates the review
half: handleReview writes yamlDataRewrite at line 276, so a successful
review-mode run injects the one-import content, and yamlDataReview is never
referenced.  This theorem evaluates a successful review run at the failing
input and exhibits the divergence. -/
theorem c1_review_writes_rewrite_content :
    (speedMain envOk argsReview).outcome = .ok ∧
    (speedMain envOk argsReview).yamlWritten = some yamlDataRewrite ∧
    yamlDataRewrite ≠ yamlDataReview :=
  ⟨rfl, rfl, by decide⟩

/-- Review-mode environment in which writing the configuration file fails. -/
def envWriteFail : Env := { envOk with writeYamlOk := .error "disk full" }

/-- C2: the claim says the workspace directory is removed on every exit
path once it was created.  The code violates this: the cleanup is a
deferred os.RemoveAll (line 102), but every failure path exits through
log.Fatal, that is os.Exit, which does not run deferred calls.  In this run
the clone succeeded and the scaffolding write then failed: the process
exits fatally with the directory still on disk. -/
theorem c2_dir_leaked_on_fatal :
    (speedMain envWriteFail argsReview).dirCreated = true ∧
    (speedMain envWriteFail argsReview).outcome = .fatal "disk full" ∧
    (speedMain envWriteFail argsReview).dirExists = true :=
  ⟨rfl, rfl, rfl⟩

/-- Rewrite-mode environment in which the commit operation fails. -/
def envCommitFail : Env := { envOk with commitRes := .error "commit failed: disk full" }

/-- C3: the claim says a commit failure aborts the pipeline with the
underlying error of the commit step.  The code violates this: line 236
overwrites the unchecked error of Worktree.Commit (line 228) with the
result of CommitObject on the returned (zero) hash, so the run aborts with
the object-not-found lookup error instead of the commit error.  No push is
attempted, but the underlying error is lost. -/
theorem c3_commit_error_replaced :
    (speedMain envCommitFail argsRewrite).outcome = .fatal errObjectNotFound ∧
    (speedMain envCommitFail argsRewrite).outcome ≠ .fatal "commit failed: disk full" ∧
    Event.pushTry ∉ (speedMain envCommitFail argsRewrite).events :=
  ⟨rfl, by decide, by decide⟩

/-- A credentials document carrying a field the schema does not declare. -/
def docExtra : Doc := docOk ++ [("favorite", "purple")]

/-- C4: the claim says an unrecognized field in the credentials file makes
the load fail.  The code violates this: line 304 calls yaml.UnmarshalStrict
(which does report the unknown field, second conjunct), but line 305
returns the decoded record with a nil error, discarding the strict-mode
error, so the load succeeds on the failing input. -/
theorem c4_unknown_field_accepted :
    unmarshalConfigFile (.ok docExtra) = .ok (decodeDoc docExtra) ∧
    unmarshalStrict docExtra =
      .error "yaml: unmarshal errors: field not found in type main.config" :=
  ⟨rfl, rfl⟩

/-- An argument vector with correct arity and an unknown mode. -/
def argsBadMode : List String := ["speedlingo", "deploy", "acme", "widget"]

/-- C5 counterexample: the claim says an unknown mode (with correct arity)
produces the unsupported-command error with no other side effects, in
particular no fork request and no clone before the error.  The code checks
the mode only at line 118, after CreateFork (line 73), polling, TempDir and
PlainClone (line 107): in this run with mode "deploy" the fork request and
the clone both happened before the fatal unsupported-command error. -/
theorem c5_counterexample :
    (speedMain envOk argsBadMode).outcome = .fatal cmdNotFoundMsg ∧
    Event.forkRequest ∈ (speedMain envOk argsBadMode).events ∧
    Event.cloneRepo ∈ (speedMain envOk argsBadMode).events :=
  ⟨rfl, by decide, by decide⟩

/-- C5 amended: with correct arity and an unknown mode, the run does fail
with the unsupported-command error naming the two valid modes and a
non-zero exit, and the dispatch itself runs no handler (no tool run, no
commit, no push); but the fork request, polling, temp dir and clone are all
performed before the mode is examined, so those side effects do occur, and
the leaked workspace directory remains on disk. -/
theorem c5_amended_late_dispatch (env : Env) (p m o r : String) (doc : Doc)
    (hm1 : m ≠ "review") (hm2 : m ≠ "rewrite")
    (h1 : env.mkResultsDirOk = .ok ()) (h2 : env.readConfig = .ok doc)
    (h3 : env.createFork = .ok ()) (h4 : env.getFork 0 = .ok ())
    (h5 : env.tempDir = .ok ()) (h6 : env.cloneRes = .ok ()) :
    speedMain env [p, m, o, r] =
      { RunResult.base with
        outcome := .fatal cmdNotFoundMsg
        events := [Event.forkRequest, Event.cloneRepo]
        polls := 1
        dirCreated := true
        dirExists := true
        ws := env.entries } := by
  have hd : dispatch env m (initSt env) = (.error cmdNotFoundMsg, initSt env) := by
    simp [dispatch, hm1, hm2]
  rw [speedMain_cons]
  have heq : speedMainGo env m = finish (dispatch env m (initSt env)) 1 := by
    simp [speedMainGo, h1, h2, unmarshalConfigFile, h3, pollPhase,
      pollFork_firstOk env.getFork "" h4, afterFork, h5, h6]
  rw [heq, hd]
  simp [finish, initSt, RunResult.base]

/-- Witness for the amended C5 at a concrete input. -/
theorem c5_amended_witness :
    speedMain envOk argsBadMode =
      { RunResult.base with
        outcome := .fatal cmdNotFoundMsg
        events := [Event.forkRequest, Event.cloneRepo]
        polls := 1
        dirCreated := true
        dirExists := true
        ws := envOk.entries } :=
  c5_amended_late_dispatch envOk "speedlingo" "deploy" "acme" "widget" docOk
    (by decide) (by decide) rfl rfl rfl rfl rfl rfl

/-- C6: routing of fork-request errors (lines 73-78).  If the error text
contains the known scheduled message, the run is not aborted and the
polling phase is entered (at least one readiness query is issued); any
other fork-request error is fatal immediately, with no polling, no clone,
and no later stage. -/
theorem c6_fork_error_routing (env : Env) (p m o r : String) (doc : Doc)
    (h1 : env.mkResultsDirOk = .ok ()) (h2 : env.readConfig = .ok doc) :
    (∀ e, env.createFork = .error e → strContains e scheduledMsg = true →
      1 ≤ (speedMain env [p, m, o, r]).polls) ∧
    (∀ e, env.createFork = .error e → strContains e scheduledMsg = false →
      speedMain env [p, m, o, r] =
        { RunResult.base with
          outcome := .fatal e
          events := [Event.forkRequest] }) := by
  constructor
  · intro e he hs
    rw [speedMain_cons]
    have heq : speedMainGo env m = pollPhase env m e := by
      simp [speedMainGo, h1, h2, unmarshalConfigFile, he, hs]
    rw [heq, pollPhase_polls]
    exact pollFork_count_pos env.getFork e
  · intro e he hs
    rw [speedMain_cons]
    simp [speedMainGo, h1, h2, unmarshalConfigFile, he, hs]

/-- Fork request answered with the scheduled message. -/
def envSched : Env :=
  { envOk with createFork := .error "POST fork: job scheduled on GitHub side; try again later" }

/-- Fork request denied outright. -/
def envForkDenied : Env := { envOk with createFork := .error "404 Not Found" }

/-- Witness for C6 at concrete inputs, one per routing direction. -/
theorem c6_witness :
    1 ≤ (speedMain envSched argsReview).polls ∧
    speedMain envForkDenied argsReview =
      { RunResult.base with
        outcome := .fatal "404 Not Found"
        events := [Event.forkRequest] } := by
  constructor
  · exact (c6_fork_error_routing envSched "speedlingo" "review" "acme" "widget" docOk
      rfl rfl).1 _ rfl (by decide)
  · exact (c6_fork_error_routing envForkDenied "speedlingo" "review" "acme" "widget" docOk
      rfl rfl).2 _ rfl (by decide)

/-- C7: when the readiness query never succeeds, the loop (2-second sleep
between queries, 5-minute deadline set at line 80) issues 151 queries and
then stops fatally with the last observed error, and the run performs no
clone, no commit and no push: the whole result is the base record with
only the fork-request event. -/
theorem c7_poll_timeout (env : Env) (p m o r : String) (doc : Doc) (f : Nat → String)
    (h1 : env.mkResultsDirOk = .ok ()) (h2 : env.readConfig = .ok doc)
    (hfork : env.createFork = .ok () ∨
      ∃ e, env.createFork = .error e ∧ strContains e scheduledMsg = true)
    (hget : ∀ k, env.getFork k = .error (f k)) :
    speedMain env [p, m, o, r] =
      { RunResult.base with
        outcome := .fatal (f 150)
        events := [Event.forkRequest]
        polls := 151 } := by
  rw [speedMain_cons]
  rcases hfork with h3 | ⟨e, h3, hs⟩
  · simp [speedMainGo, h1, h2, unmarshalConfigFile, h3, pollPhase,
      pollFork_allFail env.getFork f hget ""]
  · simp [speedMainGo, h1, h2, unmarshalConfigFile, h3, hs, pollPhase,
      pollFork_allFail env.getFork f hget e]

/-- Environment whose fork never becomes queryable. -/
def envPollFail : Env := { envOk with getFork := fun _ => .error "no fork yet" }

/-- Witness for C7 at a concrete input. -/
theorem c7_witness :
    (∀ k, envPollFail.getFork k = .error "no fork yet") ∧
    speedMain envPollFail argsReview =
      { RunResult.base with
        outcome := .fatal "no fork yet"
        events := [Event.forkRequest]
        polls := 151 } :=
  ⟨fun _ => rfl,
    c7_poll_timeout envPollFail "speedlingo" "review" "acme" "widget" docOk
      (fun _ => "no fork yet") rfl rfl (Or.inl rfl) (fun _ => rfl)⟩

/-- C8: in every successful rewrite-mode run (on a clone that does not
itself ship a file named like the ignore file), the working tree recorded
just before the tool invocation holds the configuration file, and the
ignore file exactly when a top-level directory literally named vendor
exists; and the file set of the pushed commit (stage-all, then subtract)
holds neither the configuration file nor, when it was written, the ignore
file. -/
theorem c8_scaffolding_in_tree_not_in_commit (env : Env) (p o r : String)
    (hi : ignoreFileName ∉ entNames env.entries)
    (hok : (speedMain env [p, "rewrite", o, r]).outcome = .ok) :
    ∃ wb cf,
      (speedMain env [p, "rewrite", o, r]).wsBeforeTool = some wb ∧
      (speedMain env [p, "rewrite", o, r]).commitFiles = some cf ∧
      yamlName ∈ entNames wb ∧
      (hasVendor env.entries = true ↔ ignoreFileName ∈ entNames wb) ∧
      yamlName ∉ cf ∧
      (hasVendor env.entries = true → ignoreFileName ∉ cf) := by
  obtain ⟨st', hH, hws, hwb, hcf, hyw⟩ := speedMain_rewrite_ok env p o r hok
  obtain ⟨wb, cf, e1, e2, e3, e4, e5, e6, e7, e8⟩ :=
    handleRewrite_ok_spec env (initSt env) st' hi hH
  exact ⟨wb, cf, by rw [hwb, e1], by rw [hcf, e2], e3, e4, e5, e6⟩

/-- Witness for C8 at a concrete successful rewrite run. -/
theorem c8_witness :
    (ignoreFileName ∉ entNames envOk.entries) ∧
    ((speedMain envOk argsRewrite).outcome = .ok) ∧
    (∃ wb cf,
      (speedMain envOk argsRewrite).wsBeforeTool = some wb ∧
      (speedMain envOk argsRewrite).commitFiles = some cf ∧
      yamlName ∈ entNames wb ∧
      (hasVendor envOk.entries = true ↔ ignoreFileName ∈ entNames wb) ∧
      yamlName ∉ cf ∧
      (hasVendor envOk.entries = true → ignoreFileName ∉ cf)) :=
  ⟨by decide, rfl,
    c8_scaffolding_in_tree_not_in_commit envOk "speedlingo" "acme" "widget"
      (by decide) rfl⟩

/-- C9 counterexample: the claim says that after the commit the scaffolding
files remain on disk in the workspace, only excluded from the commit.  The
code violates this: Worktree.Remove (lines 216 and 222) has git-rm
semantics and deletes the file from the working tree as well as from the
index.  Here a successful rewrite run wrote the configuration file, yet it
is absent from the working tree when the run ends. -/
theorem c9_counterexample :
    (speedMain envOk argsRewrite).outcome = .ok ∧
    (speedMain envOk argsRewrite).yamlWritten = some yamlDataRewrite ∧
    yamlName ∉ entNames (speedMain envOk argsRewrite).ws :=
  ⟨rfl, rfl, by decide⟩

/-- C9 amended: in every successful rewrite-mode run, after the commit the
scaffolding files are excluded from the commit (theorem for C8) but are
also gone from the working tree: the subtract step removes them from index
and disk alike. -/
theorem c9_amended_scaffolding_removed_from_tree (env : Env) (p o r : String)
    (hi : ignoreFileName ∉ entNames env.entries)
    (hok : (speedMain env [p, "rewrite", o, r]).outcome = .ok) :
    yamlName ∉ entNames (speedMain env [p, "rewrite", o, r]).ws ∧
    (hasVendor env.entries = true →
      ignoreFileName ∉ entNames (speedMain env [p, "rewrite", o, r]).ws) := by
  obtain ⟨st', hH, hws, hwb, hcf, hyw⟩ := speedMain_rewrite_ok env p o r hok
  obtain ⟨wb, cf, e1, e2, e3, e4, e5, e6, e7, e8⟩ :=
    handleRewrite_ok_spec env (initSt env) st' hi hH
  rw [hws]
  exact ⟨e7, e8⟩

/-- Witness for the amended C9 at a concrete successful rewrite run. -/
theorem c9_amended_witness :
    (ignoreFileName ∉ entNames envOk.entries) ∧
    ((speedMain envOk argsRewrite).outcome = .ok) ∧
    (yamlName ∉ entNames (speedMain envOk argsRewrite).ws ∧
      (hasVendor envOk.entries = true →
        ignoreFileName ∉ entNames (speedMain envOk argsRewrite).ws)) :=
  ⟨by decide, rfl,
    c9_amended_scaffolding_removed_from_tree envOk "speedlingo" "acme" "widget"
      (by decide) rfl⟩

/-- C10: branch resolution (lines 163-175) is idempotent.  When the
dedicated branch already exists, the plain checkout succeeds, resolution
reports only the no-create checkout (no creation is attempted) and does
not fail; creation is attempted only after a plain-checkout failure, which
in a pristine clone means the branch did not exist; and when the branch
does not exist and creation fails, handleRewrite aborts with that error. -/
theorem c10_branch_resolution_idempotent (env : Env) (st : St)
    (hcd : env.chdirOk = .ok ()) (hwt : env.worktreeOk = .ok ()) :
    (branchName ∈ st.branches →
      resolveBranch env st.branches = (.ok st.branches, [Event.checkoutNoCreate])) ∧
    (Event.checkoutCreate ∈ (resolveBranch env st.branches).2 →
      branchName ∉ st.branches) ∧
    (branchName ∉ st.branches → ∀ e, env.createBranchOk = .error e →
      (handleRewrite env st).1 = .error e) := by
  refine ⟨?_, ?_, ?_⟩
  · intro hmem
    simp [resolveBranch, checkoutNoCreate, hmem]
  · intro hev hmem
    simp [resolveBranch, checkoutNoCreate, hmem] at hev
  · intro hmem e hce
    have hrb : resolveBranch env st.branches =
        (.error e, [Event.checkoutNoCreate, Event.checkoutCreate]) := by
      simp [resolveBranch, checkoutNoCreate, checkoutCreate, hmem, hce]
    simp [handleRewrite, hcd, hwt, hrb]

/-- A clone state in which the dedicated branch already exists. -/
def stBranchExists : St := { initSt envOk with branches := ["rewrite", "master"] }

/-- Witness for C10 at a concrete input with the branch pre-existing. -/
theorem c10_witness :
    (branchName ∈ stBranchExists.branches →
      resolveBranch envOk stBranchExists.branches =
        (.ok stBranchExists.branches, [Event.checkoutNoCreate])) ∧
    (Event.checkoutCreate ∈ (resolveBranch envOk stBranchExists.branches).2 →
      branchName ∉ stBranchExists.branches) ∧
    (branchName ∉ stBranchExists.branches → ∀ e, envOk.createBranchOk = .error e →
      (handleRewrite envOk stBranchExists).1 = .error e) :=
  c10_branch_resolution_idempotent envOk stBranchExists rfl rfl

end Speedlingo
